import Mathlib

/-!
Verification of the Spotify playlist analyzer client and analyzer component.

The definitions below are a shallow embedding of the TypeScript sources:
  * src/lib/spotify.ts        (SpotifyClient: fetch retry loop, pagination,
                               audio-feature batching, playlist track append)
  * src/components/playlist/playlist-analyzer.tsx
                              (filteredTracks, stats, handleCreatePlaylist)

Numbers that are IEEE doubles in the source (tempo, energy, popularity, ...)
are modelled as rationals: every comparison and arithmetic operation the
claims involve is exact on the values the program manipulates.  Loops are
modelled with an explicit fuel argument that the wrapper definitions
instantiate large enough to cover every run of the source loop; the theorems
below never depend on the fuel being short.
-/

namespace SpotifyAnalyzer

/-! ## Pagination: SpotifyClient.getAllPlaylistTracks (src/lib/spotify.ts:135-159)

The upstream service is modelled as the full ordered track list; a call
`getPlaylistTracks(playlistId, limit, offset)` answers with the slice of at
most `limit` items starting at `offset`, which is how the paginated endpoint
behaves. -/

/-- One page of the paginated track endpoint: the slice of the upstream list
starting at `offset`, of at most `limit` items. -/
def getPlaylistTracks (upstream : List α) (limit offset : Nat) : List α :=
  (upstream.drop offset).take limit

/-- The body of the source's `while (true)` pagination loop
(src/lib/spotify.ts:142-155): request a page at the current offset, append it
whole to the accumulator, stop when the page has fewer than `limit` items,
otherwise advance the offset by `limit`.  `fuel` bounds the iteration count;
the wrapper supplies enough for any upstream list. -/
def getAllPlaylistTracksGo (upstream : List α) (limit : Nat) :
    Nat → Nat → List α → List α
  | 0, _, allTracks => allTracks
  | fuel + 1, offset, allTracks =>
    let response := getPlaylistTracks upstream limit offset
    let acc := allTracks ++ response
    if response.length < limit then acc
    else getAllPlaylistTracksGo upstream limit fuel (offset + limit) acc

/-- SpotifyClient.getAllPlaylistTracks (src/lib/spotify.ts:135-159): page size
fixed at 50, starting offset 0, empty accumulator. -/
def getAllPlaylistTracks (upstream : List α) : List α :=
  getAllPlaylistTracksGo upstream 50 (upstream.length + 1) 0 []

theorem getAllPlaylistTracksGo_eq (upstream : List α) :
    ∀ (fuel offset : Nat) (acc : List α),
      upstream.length - offset < fuel * 50 →
      getAllPlaylistTracksGo upstream 50 fuel offset acc = acc ++ upstream.drop offset := by
  intro fuel
  induction fuel with
  | zero => intro offset acc h; omega
  | succ fuel ih =>
    intro offset acc h
    simp only [getAllPlaylistTracksGo, getPlaylistTracks]
    by_cases hlt : ((upstream.drop offset).take 50).length < 50
    · simp only [if_pos hlt]
      have hlen : (upstream.drop offset).length ≤ 50 := by
        simp only [List.length_take, List.length_drop] at hlt ⊢
        omega
      rw [List.take_of_length_le hlen]
    · simp only [if_neg hlt]
      have h50 : 50 ≤ (upstream.drop offset).length := by
        simp only [List.length_take, List.length_drop] at hlt ⊢
        omega
      rw [ih (offset + 50) _ (by simp only [List.length_drop] at h50 ⊢; omega)]
      rw [List.append_assoc]
      congr 1
      have hdd : List.drop (offset + 50) upstream
          = List.drop 50 (List.drop offset upstream) := by
        rw [List.drop_drop]
      rw [hdd]
      exact List.take_append_drop _ _

/-- C1: for every upstream track list (any length N ≥ 0, including N = 0,
N = 50, N = 51), the pagination loop of getAllPlaylistTracks returns exactly
the N upstream items in upstream order: pages of size 50 are requested at
offsets 0, 50, 100, ..., appended whole in arrival order, and the loop stops
exactly when a page comes back with fewer than 50 items. -/
theorem getAllPlaylistTracks_eq_upstream (upstream : List α) :
    getAllPlaylistTracks upstream = upstream := by
  unfold getAllPlaylistTracks
  rw [getAllPlaylistTracksGo_eq upstream (upstream.length + 1) 0 [] (by omega)]
  simp

/-! ## Chunking: the slicing loop shared by getAudioFeatures
(src/lib/spotify.ts:207-268 and 507-539) and addTracksToPlaylist
(src/lib/spotify.ts:286-309):
`for (let i = 0; i < xs.length; i += chunkSize) chunks.push(xs.slice(i, i + chunkSize))`.
Each iteration takes the next `chunkSize` items and continues on the rest;
`fuel` bounds the iteration count, and `chunksOf` supplies `xs.length`, which
is enough whenever `chunkSize ≥ 1`. -/

/-- One iteration of the slicing loop: emit `xs.take chunkSize` and continue
on `xs.drop chunkSize`. -/
def chunksGo (chunkSize : Nat) : Nat → List α → List (List α)
  | _, [] => []
  | 0, _ :: _ => []
  | fuel + 1, x :: xs =>
    (x :: xs).take chunkSize :: chunksGo chunkSize fuel ((x :: xs).drop chunkSize)

/-- The complete slicing loop over the whole input list. -/
def chunksOf (chunkSize : Nat) (xs : List α) : List (List α) :=
  chunksGo chunkSize xs.length xs

theorem chunksGo_join (chunkSize : Nat) (hcs : 0 < chunkSize) :
    ∀ (fuel : Nat) (xs : List α), xs.length ≤ fuel →
      (chunksGo chunkSize fuel xs).flatten = xs := by
  intro fuel
  induction fuel with
  | zero =>
    intro xs hxs
    have hx : xs = [] := List.eq_nil_of_length_eq_zero (Nat.le_zero.mp hxs)
    subst hx
    simp [chunksGo]
  | succ fuel ih =>
    intro xs hxs
    cases xs with
    | nil => simp [chunksGo]
    | cons x xs =>
      simp only [chunksGo, List.flatten_cons]
      rw [ih ((x :: xs).drop chunkSize)
        (by simp only [List.length_drop, List.length_cons] at hxs ⊢; omega)]
      exact List.take_append_drop _ _

theorem chunksOf_join (chunkSize : Nat) (hcs : 0 < chunkSize) (xs : List α) :
    (chunksOf chunkSize xs).flatten = xs :=
  chunksGo_join chunkSize hcs xs.length xs le_rfl

theorem chunksGo_length (chunkSize : Nat) (hcs : 0 < chunkSize) :
    ∀ (fuel : Nat) (xs : List α), xs.length ≤ fuel →
      (chunksGo chunkSize fuel xs).length = (xs.length + chunkSize - 1) / chunkSize := by
  intro fuel
  induction fuel with
  | zero =>
    intro xs hxs
    have hx : xs = [] := List.eq_nil_of_length_eq_zero (Nat.le_zero.mp hxs)
    subst hx
    simp only [chunksGo, List.length_nil, List.length, Nat.zero_add]
    rw [Nat.div_eq_of_lt (by omega)]
  | succ fuel ih =>
    intro xs hxs
    cases xs with
    | nil =>
      simp only [chunksGo, List.length_nil, List.length, Nat.zero_add]
      rw [Nat.div_eq_of_lt (by omega)]
    | cons x xs =>
      simp only [chunksGo, List.length_cons]
      rw [ih ((x :: xs).drop chunkSize)
        (by simp only [List.length_drop, List.length_cons] at hxs ⊢; omega)]
      simp only [List.length_drop, List.length_cons]
      rcases le_or_lt (xs.length + 1) chunkSize with hle | hlt
      · have h1 : xs.length + 1 - chunkSize = 0 := by omega
        rw [h1]
        rw [Nat.div_eq_of_lt (by omega)]
        have h2 : xs.length + 1 + chunkSize - 1 = xs.length + chunkSize := by omega
        rw [h2, Nat.add_div_right _ hcs, Nat.div_eq_of_lt (by omega)]
      · have h1 : xs.length + 1 - chunkSize + chunkSize - 1 = xs.length := by omega
        have h2 : xs.length + 1 + chunkSize - 1 = xs.length + chunkSize := by omega
        rw [h1, h2, Nat.add_div_right _ hcs]

theorem chunksOf_length (chunkSize : Nat) (hcs : 0 < chunkSize) (xs : List α) :
    (chunksOf chunkSize xs).length = (xs.length + chunkSize - 1) / chunkSize :=
  chunksGo_length chunkSize hcs xs.length xs le_rfl

theorem chunksGo_mem (chunkSize : Nat) :
    ∀ (fuel : Nat) (xs : List α) (c : List α), c ∈ chunksGo chunkSize fuel xs →
      c.length ≤ chunkSize ∧ ∀ a ∈ c, a ∈ xs := by
  intro fuel
  induction fuel with
  | zero =>
    intro xs c hc
    cases xs <;> simp [chunksGo] at hc
  | succ fuel ih =>
    intro xs c hc
    cases xs with
    | nil => simp [chunksGo] at hc
    | cons x xs =>
      simp only [chunksGo, List.mem_cons] at hc
      rcases hc with rfl | hc
      · exact ⟨List.length_take_le _ _, fun a ha => List.take_subset _ _ ha⟩
      · obtain ⟨hlen, hsub⟩ := ih _ c hc
        exact ⟨hlen, fun a ha => List.drop_subset _ _ (hsub a ha)⟩

theorem chunksOf_mem (chunkSize : Nat) (xs : List α) (c : List α)
    (hc : c ∈ chunksOf chunkSize xs) :
    c.length ≤ chunkSize ∧ ∀ a ∈ c, a ∈ xs :=
  chunksGo_mem chunkSize xs.length xs c hc

/-- Audio-feature record for one track (src/types/spotify.ts:43-57). -/
structure AudioFeatures where
  id : String
  acousticness : ℚ
  danceability : ℚ
  energy : ℚ
  instrumentalness : ℚ
  key : Int
  liveness : ℚ
  loudness : ℚ
  mode : Int
  speechiness : ℚ
  tempo : ℚ
  time_signature : Int
  valence : ℚ
deriving DecidableEq

/-- SpotifyClient.getAudioFeatures, parametrised over the chunk size (50 in
the revision at src/lib/spotify.ts:207-268, 100 in the revision at
src/lib/spotify.ts:507-539) and over the batch endpoint `service`, which
answers one request for a chunk of ids with one `Option AudioFeatures` per
item (`none` for ids the service has no features for).  Per chunk the client
issues exactly one request, drops the per-item nulls, and appends the valid
features in order. -/
def getAudioFeaturesWith (chunkSize : Nat)
    (service : List String → List (Option AudioFeatures))
    (trackIds : List String) : List AudioFeatures :=
  ((chunksOf chunkSize trackIds).map fun chunk => (service chunk).filterMap id).flatten

/-- First revision of SpotifyClient.getAudioFeatures (src/lib/spotify.ts:207-268),
chunk size 50. -/
def getAudioFeatures (service : List String → List (Option AudioFeatures))
    (trackIds : List String) : List AudioFeatures :=
  getAudioFeaturesWith 50 service trackIds

/-- Second revision of SpotifyClient.getAudioFeatures (src/lib/spotify.ts:507-539),
chunk size 100. -/
def getAudioFeaturesSecond (service : List String → List (Option AudioFeatures))
    (trackIds : List String) : List AudioFeatures :=
  getAudioFeaturesWith 100 service trackIds

/-- C4: for every track-id list, getAudioFeatures slices it into exactly
⌈N/chunkSize⌉ chunks, each of length at most the chunk size (itself at most
the service limit of 100), issues one batch request per chunk, filters out
per-item nulls, and — provided the service only ever answers with features
for ids it was asked about, which is how the real batch endpoint behaves —
every id in the returned feature list is a member of the requested id list. -/
theorem getAudioFeatures_requests_and_subset
    (chunkSize : Nat) (service : List String → List (Option AudioFeatures))
    (trackIds : List String)
    (hcs : 0 < chunkSize) (hcap : chunkSize ≤ 100)
    (hservice : ∀ chunk f, some f ∈ service chunk → f.id ∈ chunk) :
    (chunksOf chunkSize trackIds).length = (trackIds.length + chunkSize - 1) / chunkSize ∧
    (∀ c ∈ chunksOf chunkSize trackIds, c.length ≤ chunkSize ∧ c.length ≤ 100) ∧
    ∀ f ∈ getAudioFeaturesWith chunkSize service trackIds, f.id ∈ trackIds := by
  refine ⟨chunksOf_length _ hcs _, ?_, ?_⟩
  · intro c hc
    have hlen := (chunksOf_mem _ _ _ hc).1
    exact ⟨hlen, le_trans hlen hcap⟩
  · intro f hf
    simp only [getAudioFeaturesWith, List.mem_flatten, List.mem_map] at hf
    obtain ⟨l, ⟨chunk, hchunk, rfl⟩, hfl⟩ := hf
    rw [List.mem_filterMap] at hfl
    obtain ⟨o, ho, hid⟩ := hfl
    cases o with
    | none => simp at hid
    | some g =>
      simp only [id_eq, Option.some.injEq] at hid
      subst hid
      exact (chunksOf_mem _ _ _ hchunk).2 _ (hservice chunk _ ho)

/-- A batch endpoint for the C4 witness: it has features for no track at all
(every request comes back empty). -/
def emptyFeatureService : List String → List (Option AudioFeatures) := fun _ => []

/-- Witness for C4 at chunk size 50 and a two-id request. -/
theorem getAudioFeatures_requests_and_subset_witness :
    (chunksOf 50 (["a", "b"] : List String)).length = ((["a", "b"] : List String).length + 50 - 1) / 50 ∧
    (∀ c ∈ chunksOf 50 (["a", "b"] : List String), c.length ≤ 50 ∧ c.length ≤ 100) ∧
    ∀ f ∈ getAudioFeaturesWith 50 emptyFeatureService ["a", "b"], f.id ∈ ["a", "b"] :=
  getAudioFeatures_requests_and_subset 50 emptyFeatureService ["a", "b"]
    (by omega) (by omega)
    (fun chunk f h => by simp [emptyFeatureService] at h)

/-- SpotifyClient.addTracksToPlaylist (src/lib/spotify.ts:286-309): slice the
URI list into chunks of at most 100 and issue one POST per chunk, in list
order, each dispatched only after the previous response (the loop awaits each
request and the inter-chunk delay before continuing).  The value modelled
here is the sequence of request bodies, in dispatch order. -/
def addTracksToPlaylist (trackUris : List String) : List (List String) :=
  chunksOf 100 trackUris

set_option maxRecDepth 10000 in
/-- C5: addTracksToPlaylist slices the URI list into consecutive chunks of at
most 100, one append request per chunk in list order, so that the
concatenation of the submitted chunks is exactly the caller-supplied URI list;
for 250 URIs that is exactly 3 requests of sizes 100, 100, 50. -/
theorem addTracksToPlaylist_requests (trackUris : List String) :
    (addTracksToPlaylist trackUris).flatten = trackUris ∧
    (∀ c ∈ addTracksToPlaylist trackUris, c.length ≤ 100) ∧
    (addTracksToPlaylist (List.replicate 250 "spotify:track:x")).map List.length
      = [100, 100, 50] := by
  refine ⟨chunksOf_join 100 (by omega) _, fun c hc => (chunksOf_mem _ _ _ hc).1, ?_⟩
  rfl

/-! ## The retry loop: SpotifyClient.fetch (src/lib/spotify.ts:19-96)

`for (let attempt = 0; attempt < retries; attempt++)`: each iteration makes
one network call.  A 429 response waits (Retry-After seconds × 1000 when the
header is present, otherwise (attempt+1) × 2000 ms) and `continue`s — which
still advances `attempt`.  Any other non-ok response raises a descriptive
error carrying the response body; that error is caught in the same iteration:
on the last attempt it is wrapped in a terminal "max retries" error, otherwise
the loop waits (attempt+1) × 1000 ms and retries.  An ok response returns the
parsed body.  Falling out of the loop raises a bare "Max retries reached".

The network is modelled as a function from the iteration index to the
response that call gets; the model returns the outcome together with the
sequence of waits slept and the number of calls made. -/

/-- One response of the upstream service to one request. -/
inductive SvcResponse (α : Type) where
  | success (body : α)
  | rateLimited (retryAfterSeconds : Option Nat)
  | httpError (status : Nat) (body : String)
deriving DecidableEq

/-- The descriptive error built from a non-ok response
(src/lib/spotify.ts:50-75): it carries the status and the response body. -/
inductive FetchError where
  | api (status : Nat) (body : String)
deriving DecidableEq

/-- Outcome of SpotifyClient.fetch. -/
inductive FetchOutcome (α : Type) where
  /-- an ok response: the parsed body is returned -/
  | ok (body : α)
  /-- the terminal error raised on the last attempt, wrapping the last
  underlying error (src/lib/spotify.ts:80-87) -/
  | maxRetriesWrapping (lastError : FetchError)
  /-- the bare `Max retries reached` raised after falling out of the loop
  (src/lib/spotify.ts:95) -/
  | maxRetriesBare
deriving DecidableEq

/-- Outcome plus the observable trace: waits slept (in ms, in order) and
number of network calls made. -/
structure FetchTrace (α : Type) where
  outcome : FetchOutcome α
  waitsMs : List Nat
  calls : Nat
deriving DecidableEq

/-- The body of the retry loop of SpotifyClient.fetch
(src/lib/spotify.ts:28-93).  `remaining = retries - attempt` counts the loop
iterations left; `spotifyFetch` starts it at `retries`, preserving
`attempt + remaining = retries`. -/
def fetchGo (responses : Nat → SvcResponse α) (retries : Nat) :
    Nat → Nat → List Nat → Nat → FetchTrace α
  | 0, _, waits, calls => ⟨.maxRetriesBare, waits.reverse, calls⟩
  | remaining + 1, attempt, waits, calls =>
    match responses attempt with
    | .success body => ⟨.ok body, waits.reverse, calls + 1⟩
    | .rateLimited retryAfter =>
      let waitTime := match retryAfter with
        | some s => s * 1000
        | none => (attempt + 1) * 2000
      fetchGo responses retries remaining (attempt + 1) (waitTime :: waits) (calls + 1)
    | .httpError status body =>
      if attempt = retries - 1 then
        ⟨.maxRetriesWrapping (.api status body), waits.reverse, calls + 1⟩
      else
        fetchGo responses retries remaining (attempt + 1)
          ((attempt + 1) * 1000 :: waits) (calls + 1)

/-- SpotifyClient.fetch (src/lib/spotify.ts:19-96) with its default budget of
`retries = 3` loop iterations. -/
def spotifyFetch (responses : Nat → SvcResponse α) (retries : Nat := 3) :
    FetchTrace α :=
  fetchGo responses retries retries 0 [] 0

theorem fetchGo_calls_le (responses : Nat → SvcResponse α) (retries : Nat) :
    ∀ (remaining attempt : Nat) (waits : List Nat) (calls : Nat),
      (fetchGo responses retries remaining attempt waits calls).calls ≤ calls + remaining := by
  intro remaining
  induction remaining with
  | zero => intro attempt waits calls; simp [fetchGo]
  | succ remaining ih =>
    intro attempt waits calls
    cases hresp : responses attempt with
    | success body => simp [fetchGo, hresp]
    | rateLimited retryAfter =>
      simp only [fetchGo, hresp]
      exact (ih (attempt + 1) _ (calls + 1)).trans (by omega)
    | httpError status body =>
      simp only [fetchGo, hresp]
      by_cases h : attempt = retries - 1
      · simp [h]
      · simp only [if_neg h]
        have := ih (attempt + 1) ((attempt + 1) * 1000 :: waits) (calls + 1)
        omega

/-- A service for the C6 counterexample: three rate-limit responses, then
success.  (`threeRateLimits n` is the response to the `n`-th call.) -/
def threeRateLimits : Nat → SvcResponse Nat := fun n =>
  if n < 3 then .rateLimited none else .success 42

/-- C6 counterexample: rate-limit responses DO consume the retry budget.
Against a service whose first three responses are 429 and whose fourth is a
success, the client makes exactly 3 calls — sleeping the backoff after each
429 — and then gives up with the bare terminal failure instead of ever
reaching the success; under the claim ("rate-limit responses do not count
against the retry budget") the call would have completed with the success
body. -/
theorem rateLimits_consume_budget :
    spotifyFetch threeRateLimits 3
      = ⟨.maxRetriesBare, [2000, 4000, 6000], 3⟩ ∧
    (spotifyFetch threeRateLimits 3).outcome ≠ .ok 42 := by
  constructor
  · rfl
  · intro h
    rw [show (spotifyFetch threeRateLimits 3).outcome
        = FetchOutcome.maxRetriesBare from rfl] at h
    exact FetchOutcome.noConfusion h

/-- C6 (amended): on a 429 the client waits the Retry-After hint × 1000 ms
when the header is present (otherwise (attempt+1) × 2000 ms) and then retries
the same request, this retry consuming one attempt of the shared 3-attempt
budget; a service that rate-limits once and then succeeds completes with
exactly one retry (2 calls) after pausing exactly the hinted duration, and a
service that rate-limits on every attempt exhausts the budget after 3 calls. -/
theorem rateLimit_retry_behaviour (hint : Nat) (body : α) :
    spotifyFetch (fun n => if n = 0 then .rateLimited (some hint) else .success body) 3
      = ⟨.ok body, [hint * 1000], 2⟩ ∧
    spotifyFetch (fun n => if n = 0 then .rateLimited none else .success body) 3
      = ⟨.ok body, [2000], 2⟩ ∧
    spotifyFetch (fun _ => (.rateLimited (some hint) : SvcResponse α)) 3
      = ⟨.maxRetriesBare, [hint * 1000, hint * 1000, hint * 1000], 3⟩ := by
  refine ⟨?_, ?_, ?_⟩ <;> simp [spotifyFetch, fetchGo]

/-- C7: SpotifyClient.fetch makes at most 3 attempts in total; against a
non-success, non-rate-limit response it raises a descriptive failure carrying
the response status and body, waits attempt-number × 1000 ms (linearly
increasing) before the next attempt, surfaces a terminal failure that wraps
the last underlying error once the budget is spent, and a success on any
attempt returns the parsed response body. -/
theorem fetch_error_retry_policy (responses : Nat → SvcResponse α) :
    (spotifyFetch responses 3).calls ≤ 3 ∧
    (∀ body, responses 0 = .success body →
      spotifyFetch responses 3 = ⟨.ok body, [], 1⟩) ∧
    (∀ s t body, responses 0 = .httpError s t → responses 1 = .success body →
      spotifyFetch responses 3 = ⟨.ok body, [1000], 2⟩) ∧
    (∀ s0 t0 s1 t1 body, responses 0 = .httpError s0 t0 →
      responses 1 = .httpError s1 t1 → responses 2 = .success body →
      spotifyFetch responses 3 = ⟨.ok body, [1000, 2000], 3⟩) ∧
    (∀ s0 t0 s1 t1 s2 t2, responses 0 = .httpError s0 t0 →
      responses 1 = .httpError s1 t1 → responses 2 = .httpError s2 t2 →
      spotifyFetch responses 3
        = ⟨.maxRetriesWrapping (.api s2 t2), [1000, 2000], 3⟩) := by
  refine ⟨fetchGo_calls_le responses 3 3 0 [] 0, ?_, ?_, ?_, ?_⟩
  · intro body h0
    simp [spotifyFetch, fetchGo, h0]
  · intro s t body h0 h1
    simp [spotifyFetch, fetchGo, h0, h1]
  · intro s0 t0 s1 t1 body h0 h1 h2
    simp [spotifyFetch, fetchGo, h0, h1, h2]
  · intro s0 t0 s1 t1 s2 t2 h0 h1 h2
    simp [spotifyFetch, fetchGo, h0, h1, h2]

/-- A service for the C7 witness: one server error, then success. -/
def oneErrorThenSuccess : Nat → SvcResponse Nat := fun n =>
  if n = 0 then .httpError 500 "server error" else .success 7

/-- Witness for C7: one 500 response then a success completes on the second
attempt with the parsed body, after a 1000 ms backoff. -/
theorem fetch_error_retry_policy_witness :
    spotifyFetch oneErrorThenSuccess 3 = ⟨.ok 7, [1000], 2⟩ :=
  (fetch_error_retry_policy oneErrorThenSuccess).2.2.1 500 "server error" 7 rfl rfl

/-! ## The analyzer component: src/components/playlist/playlist-analyzer.tsx -/

/-- The track fields of src/types/spotify.ts:24-41 that the analyzer reads
(display-only metadata — artists, album, images, preview url — is omitted;
no claim concerns it). -/
structure SpotifyTrack where
  id : String
  name : String
  duration_ms : ℚ
  uri : String
  popularity : ℚ
  explicit : Bool
deriving DecidableEq

/-- One entry of the analyzer's track list,
`ValidPlaylistTrack & { audioFeatures?: AudioFeatures }`
(src/components/playlist/playlist-analyzer.tsx:12). -/
structure AnalyzedTrack where
  added_at : String
  track : SpotifyTrack
  audioFeatures : Option AudioFeatures
deriving DecidableEq

/-- FilterOptions (src/types/spotify.ts:69-88): every field optional. -/
structure FilterOptions where
  bpmMin : Option ℚ := none
  bpmMax : Option ℚ := none
  key : Option Int := none
  energyMin : Option ℚ := none
  energyMax : Option ℚ := none
  danceabilityMin : Option ℚ := none
  danceabilityMax : Option ℚ := none
  valenceMin : Option ℚ := none
  valenceMax : Option ℚ := none
  popularityMin : Option ℚ := none
  popularityMax : Option ℚ := none
  durationMinMs : Option ℚ := none
  durationMaxMs : Option ℚ := none
  explicitOnly : Option Bool := none
  nonExplicitOnly : Option Bool := none
deriving DecidableEq

/-- The BPM block of the filter (playlist-analyzer.tsx:32-38): reject exactly
when a bound is set and the tempo is strictly outside it. -/
def bpmPass (filters : FilterOptions) (tempo : ℚ) : Bool :=
  (match filters.bpmMin with
   | some bpmMin => !decide (tempo < bpmMin)
   | none => true) &&
  (match filters.bpmMax with
   | some bpmMax => !decide (tempo > bpmMax)
   | none => true)

/-- The audio-feature block of the filter (playlist-analyzer.tsx:31-68),
evaluated only when the track has features attached. -/
def featuresPass (filters : FilterOptions) (features : AudioFeatures) : Bool :=
  bpmPass filters features.tempo &&
  (match filters.key with
   | some k => !decide (features.key ≠ k)
   | none => true) &&
  (match filters.energyMin with
   | some v => !decide (features.energy < v)
   | none => true) &&
  (match filters.energyMax with
   | some v => !decide (features.energy > v)
   | none => true) &&
  (match filters.danceabilityMin with
   | some v => !decide (features.danceability < v)
   | none => true) &&
  (match filters.danceabilityMax with
   | some v => !decide (features.danceability > v)
   | none => true) &&
  (match filters.valenceMin with
   | some v => !decide (features.valence < v)
   | none => true) &&
  (match filters.valenceMax with
   | some v => !decide (features.valence > v)
   | none => true)

/-- The basic block of the filter (playlist-analyzer.tsx:70-93): popularity
range, duration range and the explicit toggles, always evaluated on the
track itself. -/
def basicPass (filters : FilterOptions) (track : SpotifyTrack) : Bool :=
  (match filters.popularityMin with
   | some v => !decide (track.popularity < v)
   | none => true) &&
  (match filters.popularityMax with
   | some v => !decide (track.popularity > v)
   | none => true) &&
  (match filters.durationMinMs with
   | some v => !decide (track.duration_ms < v)
   | none => true) &&
  (match filters.durationMaxMs with
   | some v => !decide (track.duration_ms > v)
   | none => true) &&
  (match filters.explicitOnly with
   | some true => track.explicit
   | _ => true) &&
  (match filters.nonExplicitOnly with
   | some true => !track.explicit
   | _ => true)

/-- The predicate of `tracks.filter` in filteredTracks
(playlist-analyzer.tsx:25-97): the chain of early `return false`s is the
conjunction of the feature block — run only when the item has features — and
the basic block. -/
def passesFilters (filters : FilterOptions) (item : AnalyzedTrack) : Bool :=
  (match item.audioFeatures with
   | some features => featuresPass filters features
   | none => true) &&
  basicPass filters item.track

/-- filteredTracks (playlist-analyzer.tsx:25-97). -/
def filteredTracks (filters : FilterOptions) (tracks : List AnalyzedTrack) :
    List AnalyzedTrack :=
  tracks.filter (passesFilters filters)

/-- The URI list handleCreatePlaylist submits for playlist creation
(playlist-analyzer.tsx:146). -/
def handleCreatePlaylistUris (filters : FilterOptions)
    (tracks : List AnalyzedTrack) : List String :=
  (filteredTracks filters tracks).map fun item => item.track.uri

/-- C2: a track without audio features passes all feature-based constraints —
they are skipped, never evaluated as failing — so its inclusion equals
exactly the basic block (popularity range, duration range, explicit
toggles); and the basic block is evaluated for every track, with or without
features: any track that passes the whole filter passes the basic block. -/
theorem featureless_track_filtering :
    (∀ (filters : FilterOptions) (item : AnalyzedTrack),
      item.audioFeatures = none →
      passesFilters filters item = basicPass filters item.track) ∧
    (∀ (filters : FilterOptions) (item : AnalyzedTrack),
      passesFilters filters item = true → basicPass filters item.track = true) := by
  constructor
  · intro filters item h
    simp [passesFilters, h]
  · intro filters item h
    simp only [passesFilters, Bool.and_eq_true] at h
    exact h.2

/-- A sample track and featureless item for witnesses. -/
def sampleTrack : SpotifyTrack :=
  { id := "t1", name := "Song One", duration_ms := 200000,
    uri := "spotify:track:t1", popularity := 55, explicit := false }

/-- A sample analyzer item with no attached audio features. -/
def sampleNoFeatures : AnalyzedTrack :=
  { added_at := "2024-01-01T00:00:00Z", track := sampleTrack, audioFeatures := none }

/-- Witness for C2: on a featureless item, the filter coincides with the
basic block. -/
theorem featureless_track_filtering_witness :
    passesFilters {} sampleNoFeatures = basicPass {} sampleNoFeatures.track :=
  featureless_track_filtering.1 {} sampleNoFeatures rfl

/-- C8: the tempo constraint is inclusive on both ends — it accepts exactly
the tempos that are ≥ every set minimum and ≤ every set maximum, so a track
whose tempo equals bpmMin or bpmMax passes, and a track is rejected only for
a tempo strictly below the minimum or strictly above the maximum; and any
track whose feature block passes has in particular passed the tempo
constraint. -/
theorem bpm_bounds_inclusive :
    (∀ (filters : FilterOptions) (tempo : ℚ),
      bpmPass filters tempo = true ↔
        ((∀ m, filters.bpmMin = some m → m ≤ tempo) ∧
         (∀ M, filters.bpmMax = some M → tempo ≤ M))) ∧
    (∀ (filters : FilterOptions) (features : AudioFeatures),
      featuresPass filters features = true →
      bpmPass filters features.tempo = true) := by
  constructor
  · intro filters tempo
    cases hmin : filters.bpmMin <;> cases hmax : filters.bpmMax <;>
      simp [bpmPass, hmin, hmax, not_lt]
  · intro filters features h
    simp only [featuresPass, Bool.and_eq_true] at h
    exact h.1.1.1.1.1.1.1

/-- Filters with both tempo bounds set, for the C8 witness. -/
def boundaryFilters : FilterOptions := { bpmMin := some 120, bpmMax := some 130 }

/-- Features whose tempo sits exactly on the lower bound of
`boundaryFilters`. -/
def boundaryFeatures : AudioFeatures :=
  { id := "t2", acousticness := 0, danceability := 1, energy := 1,
    instrumentalness := 0, key := 5, liveness := 0, loudness := -6,
    mode := 1, speechiness := 0, tempo := 120, time_signature := 4,
    valence := 1 }

/-- Witness for C8: tempo exactly equal to bpmMin passes the tempo
constraint. -/
theorem bpm_bounds_inclusive_witness :
    bpmPass boundaryFilters boundaryFeatures.tempo = true :=
  bpm_bounds_inclusive.2 boundaryFilters boundaryFeatures (by decide)

/-- C10: the filtered output is a sublist of the input — every retained item
is an input item, nothing is duplicated or synthesized, and relative input
order is preserved — and consequently the URI list submitted for playlist
creation is a sublist of the input items' URIs in their original order. -/
theorem filteredTracks_sublist (filters : FilterOptions)
    (tracks : List AnalyzedTrack) :
    List.Sublist (filteredTracks filters tracks) tracks ∧
    List.Sublist (handleCreatePlaylistUris filters tracks)
      (tracks.map fun item => item.track.uri) := by
  exact ⟨List.filter_sublist _, (List.filter_sublist _).map _⟩

/-- The accumulator of the stats reduce (playlist-analyzer.tsx:117-127). -/
structure StatsSum where
  tempo : ℚ
  energy : ℚ
  danceability : ℚ
  valence : ℚ
  duration : ℚ
  popularity : ℚ
deriving DecidableEq

/-- The reduce callback of the stats accumulator
(playlist-analyzer.tsx:118-125): `item.audioFeatures?.tempo || 0` contributes
the feature value when features are attached and 0 otherwise. -/
def sumStep (acc : StatsSum) (item : AnalyzedTrack) : StatsSum :=
  { tempo := acc.tempo + (item.audioFeatures.map AudioFeatures.tempo).getD 0,
    energy := acc.energy + (item.audioFeatures.map AudioFeatures.energy).getD 0,
    danceability :=
      acc.danceability + (item.audioFeatures.map AudioFeatures.danceability).getD 0,
    valence := acc.valence + (item.audioFeatures.map AudioFeatures.valence).getD 0,
    duration := acc.duration + item.track.duration_ms,
    popularity := acc.popularity + item.track.popularity }

/-- The statistics record (playlist-analyzer.tsx:100-141). -/
structure Stats where
  count : Nat
  avgTempo : ℚ
  avgEnergy : ℚ
  avgDanceability : ℚ
  avgValence : ℚ
  totalDuration : ℚ
  avgPopularity : ℚ
  hasAudioFeatures : Bool
deriving DecidableEq

/-- stats (playlist-analyzer.tsx:100-141), computed over the already-filtered
track list: empty input short-circuits to the all-zero record; otherwise the
feature means divide by the number of tracks that have features (0 when none
do), while the popularity mean and the duration total range over all tracks. -/
def statsOf (filtered : List AnalyzedTrack) : Stats :=
  if filtered.length = 0 then
    { count := 0, avgTempo := 0, avgEnergy := 0, avgDanceability := 0,
      avgValence := 0, totalDuration := 0, avgPopularity := 0,
      hasAudioFeatures := false }
  else
    let hasAudioFeatures := filtered.any fun item => item.audioFeatures.isSome
    let sum := filtered.foldl sumStep ⟨0, 0, 0, 0, 0, 0⟩
    let tracksWithFeatures :=
      (filtered.filter fun item => item.audioFeatures.isSome).length
    { count := filtered.length,
      avgTempo :=
        if 0 < tracksWithFeatures then sum.tempo / (tracksWithFeatures : ℚ) else 0,
      avgEnergy :=
        if 0 < tracksWithFeatures then sum.energy / (tracksWithFeatures : ℚ) else 0,
      avgDanceability :=
        if 0 < tracksWithFeatures then sum.danceability / (tracksWithFeatures : ℚ)
        else 0,
      avgValence :=
        if 0 < tracksWithFeatures then sum.valence / (tracksWithFeatures : ℚ) else 0,
      totalDuration := sum.duration,
      avgPopularity := sum.popularity / (filtered.length : ℚ),
      hasAudioFeatures := hasAudioFeatures }

/-- Sum of one audio-feature field over the tracks that have features. -/
def featureSum (f : AudioFeatures → ℚ) (l : List AnalyzedTrack) : ℚ :=
  ((l.filterMap AnalyzedTrack.audioFeatures).map f).sum

/-- Sum of one track field over all tracks. -/
def trackSum (f : SpotifyTrack → ℚ) (l : List AnalyzedTrack) : ℚ :=
  (l.map fun item => f item.track).sum

/-- Number of tracks with attached features. -/
def featureCount (l : List AnalyzedTrack) : Nat :=
  (l.filter fun item => item.audioFeatures.isSome).length

theorem foldl_sumStep (l : List AnalyzedTrack) :
    ∀ acc : StatsSum,
      l.foldl sumStep acc =
        ⟨acc.tempo + featureSum AudioFeatures.tempo l,
         acc.energy + featureSum AudioFeatures.energy l,
         acc.danceability + featureSum AudioFeatures.danceability l,
         acc.valence + featureSum AudioFeatures.valence l,
         acc.duration + trackSum SpotifyTrack.duration_ms l,
         acc.popularity + trackSum SpotifyTrack.popularity l⟩ := by
  induction l with
  | nil => intro acc; simp [featureSum, trackSum]
  | cons item l ih =>
    intro acc
    rw [List.foldl_cons, ih]
    cases hf : item.audioFeatures with
    | none =>
      simp only [sumStep, hf, Option.map_none', Option.getD_none, featureSum,
        trackSum, List.filterMap_cons_none hf, List.map_cons, List.sum_cons,
        StatsSum.mk.injEq]
      refine ⟨by ring, by ring, by ring, by ring, by ring, by ring⟩
    | some features =>
      simp only [sumStep, hf, Option.map_some', Option.getD_some, featureSum,
        trackSum, List.filterMap_cons_some hf, List.map_cons, List.sum_cons,
        StatsSum.mk.injEq]
      refine ⟨by ring, by ring, by ring, by ring, by ring, by ring⟩

/-- C3: each feature-based mean of the statistics equals the feature sum over
the tracks that have features divided by the number of such tracks, and is 0
when that number is 0; the popularity mean is the popularity sum over all
filtered tracks divided by their count (0 for the empty list, via the early
return); the duration total sums over all filtered tracks; and
hasAudioFeatures is true exactly when at least one filtered track has a
non-null features attachment. -/
theorem statsOf_means (l : List AnalyzedTrack) :
    ((statsOf l).avgTempo = if featureCount l = 0 then 0
      else featureSum AudioFeatures.tempo l / (featureCount l : ℚ)) ∧
    ((statsOf l).avgEnergy = if featureCount l = 0 then 0
      else featureSum AudioFeatures.energy l / (featureCount l : ℚ)) ∧
    ((statsOf l).avgDanceability = if featureCount l = 0 then 0
      else featureSum AudioFeatures.danceability l / (featureCount l : ℚ)) ∧
    ((statsOf l).avgValence = if featureCount l = 0 then 0
      else featureSum AudioFeatures.valence l / (featureCount l : ℚ)) ∧
    ((statsOf l).totalDuration = trackSum SpotifyTrack.duration_ms l) ∧
    ((statsOf l).avgPopularity = if l.length = 0 then 0
      else trackSum SpotifyTrack.popularity l / (l.length : ℚ)) ∧
    ((statsOf l).hasAudioFeatures = true ↔
      ∃ item ∈ l, item.audioFeatures ≠ none) := by
  by_cases hl : l.length = 0
  · have hnil : l = [] := List.eq_nil_of_length_eq_zero hl
    subst hnil
    simp [statsOf, featureCount, featureSum, trackSum]
  · have hfc : featureCount l
        = (l.filter fun item => item.audioFeatures.isSome).length := rfl
    refine ⟨?_, ?_, ?_, ?_, ?_, ?_, ?_⟩
    · simp only [statsOf, if_neg hl, foldl_sumStep, zero_add, ← hfc]
      by_cases h : featureCount l = 0
      · simp [h]
      · simp [h, Nat.pos_of_ne_zero h]
    · simp only [statsOf, if_neg hl, foldl_sumStep, zero_add, ← hfc]
      by_cases h : featureCount l = 0
      · simp [h]
      · simp [h, Nat.pos_of_ne_zero h]
    · simp only [statsOf, if_neg hl, foldl_sumStep, zero_add, ← hfc]
      by_cases h : featureCount l = 0
      · simp [h]
      · simp [h, Nat.pos_of_ne_zero h]
    · simp only [statsOf, if_neg hl, foldl_sumStep, zero_add, ← hfc]
      by_cases h : featureCount l = 0
      · simp [h]
      · simp [h, Nat.pos_of_ne_zero h]
    · simp only [statsOf, if_neg hl, foldl_sumStep, zero_add]
    · simp only [statsOf, if_neg hl, foldl_sumStep, zero_add]
    · simp only [statsOf, if_neg hl]
      simp [List.any_eq_true, Option.isSome_iff_ne_none]

/-- C9: the statistics are total and guarded against division by zero: the
empty filtered set short-circuits to the all-zero record, the popularity mean
is only ever formed over a non-empty list (and is then the exact quotient of
the popularity sum by the count), and each feature mean is the explicit 0
when no track has features, and the exact quotient by the feature count
otherwise — so every field is a well-defined number for every input. -/
theorem statsOf_guarded (l : List AnalyzedTrack) :
    (statsOf ([] : List AnalyzedTrack) = ⟨0, 0, 0, 0, 0, 0, 0, false⟩) ∧
    (l ≠ [] → (statsOf l).avgPopularity * (l.length : ℚ)
      = trackSum SpotifyTrack.popularity l) ∧
    (featureCount l = 0 → (statsOf l).avgTempo = 0 ∧ (statsOf l).avgEnergy = 0 ∧
      (statsOf l).avgDanceability = 0 ∧ (statsOf l).avgValence = 0) ∧
    (0 < featureCount l → (statsOf l).avgTempo * (featureCount l : ℚ)
      = featureSum AudioFeatures.tempo l) := by
  have hfc : featureCount l
      = (l.filter fun item => item.audioFeatures.isSome).length := rfl
  refine ⟨by simp [statsOf], ?_, ?_, ?_⟩
  · intro hne
    have hl : ¬ l.length = 0 := by
      simpa [List.length_eq_zero] using hne
    simp only [statsOf, if_neg hl, foldl_sumStep, zero_add]
    rw [div_mul_cancel₀]
    exact Nat.cast_ne_zero.mpr hl
  · intro h
    by_cases hl : l.length = 0
    · have hnil : l = [] := List.eq_nil_of_length_eq_zero hl
      subst hnil
      simp [statsOf]
    · simp only [statsOf, if_neg hl, ← hfc, h]
      norm_num
  · intro h
    have hl : ¬ l.length = 0 := by
      have hle := List.length_filter_le (fun item => item.audioFeatures.isSome) l
      rw [hfc] at h
      omega
    simp only [statsOf, if_neg hl, foldl_sumStep, zero_add, ← hfc, if_pos h]
    rw [div_mul_cancel₀]
    exact Nat.cast_ne_zero.mpr (by omega)

/-- A featureful analyzer item for the C9 witness. -/
def sampleWithFeatures : AnalyzedTrack :=
  { added_at := "2024-01-02T00:00:00Z",
    track := { id := "t3", name := "Song Three", duration_ms := 180000,
               uri := "spotify:track:t3", popularity := 70, explicit := true },
    audioFeatures := some boundaryFeatures }

/-- Witness for C9: on a concrete one-element list the guarded divisions are
exact. -/
theorem statsOf_guarded_witness :
    (statsOf [sampleWithFeatures]).avgPopularity
        * (([sampleWithFeatures] : List AnalyzedTrack).length : ℚ)
      = trackSum SpotifyTrack.popularity [sampleWithFeatures] ∧
    (statsOf [sampleWithFeatures]).avgTempo * (featureCount [sampleWithFeatures] : ℚ)
      = featureSum AudioFeatures.tempo [sampleWithFeatures] :=
  ⟨(statsOf_guarded [sampleWithFeatures]).2.1 (List.cons_ne_nil _ _),
   (statsOf_guarded [sampleWithFeatures]).2.2.2 (by decide)⟩

end SpotifyAnalyzer
